import Mathlib

/-!
Shallow embedding of the `rlm-icf` extraction decision-and-recovery engine.

Python strings are modelled as `List Char` (`PyStr`); the public entry
points take Lean `String`s and delegate to the character-level workers so
that each definition can be diffed against its Python source function.
-/

namespace Icf

/-- Python strings, modelled character by character. -/
abbrev PyStr := List Char

/-- Characters that Python's `str.split` / `str.strip` treat as whitespace
(the ASCII whitespace characters plus the Unicode space separators
recognised by `str.isspace`). -/
def pyWsChars : List Char :=
  [' ', '\t', '\n', '\r', '\x0b', '\x0c', '\x1c', '\x1d', '\x1e', '\x1f', '\x85',
   '\xa0', '\u1680', '\u2000', '\u2001', '\u2002', '\u2003', '\u2004', '\u2005',
   '\u2006', '\u2007', '\u2008', '\u2009', '\u200a', '\u2028', '\u2029', '\u202f',
   '\u205f', '\u3000']

/-- Model of `c.isspace()`. -/
def isPyWs (c : Char) : Bool := pyWsChars.contains c

/-- Python `str.lower`, applied character-wise (ASCII case mapping; the
claims only exercise ASCII text). -/
def pyLower (c : Char) : Char := c.toLower

/-- Python `str.strip()` (no argument): drop leading and trailing whitespace. -/
def stripWsL (l : PyStr) : PyStr :=
  ((l.dropWhile isPyWs).reverse.dropWhile isPyWs).reverse

/-- Helper for `pySplit`: `acc` holds the current word, reversed. -/
def pySplitAux : PyStr → PyStr → List PyStr
  | [], acc => if acc.isEmpty then [] else [acc.reverse]
  | c :: t, acc =>
    if isPyWs c then
      if acc.isEmpty then pySplitAux t [] else acc.reverse :: pySplitAux t []
    else pySplitAux t (c :: acc)

/-- Python `str.split()` (no argument): split on whitespace runs, dropping
empty words. -/
def pySplit (l : PyStr) : List PyStr := pySplitAux l []

/-- Model of `_normalise` from `src/icf/validate.py`: lowercase, collapse whitespace
runs to single spaces (`" ".join(text.lower().split())`). -/
def normaliseL (l : PyStr) : PyStr :=
  List.intercalate [' '] (pySplit (l.map pyLower))

/-- Python's substring test `needle in haystack` (true for an empty needle). -/
def substrB (needle : PyStr) : PyStr → Bool
  | [] => needle.isEmpty
  | c :: t => needle.isPrefixOf (c :: t) || substrB needle t

/-! ## JSON values

`JValue` models the Python values produced by `json.loads` /
`ast.literal_eval` on the texts this engine parses. Numbers keep their
source lexeme (no claim compares numeric values); Python tuples and sets
are modelled as arrays; dictionary keys are kept as strings. -/

inductive JValue where
  | null : JValue
  | bool (b : Bool) : JValue
  | num (lex : String) : JValue
  | str (s : String) : JValue
  | arr (elems : List JValue) : JValue
  | obj (fields : List (String × JValue)) : JValue

/-- A Python dict recovered from agent output: key/value pairs in parse
order; a repeated key's later binding wins on lookup, as in Python. -/
abbrev JObj := List (String × JValue)

/-- Python `d.get(k)`: the value of the last binding of `k`, if any. -/
def jGet (d : JObj) (k : String) : Option JValue :=
  (d.reverse.find? (fun p => p.1 == k)).map (fun p => p.2)

/-- Python `k in d`. -/
def hasKey (d : JObj) (k : String) : Bool :=
  d.any (fun p => p.1 == k)

/-- Python `str(v)` restricted to the leaf values the pipeline actually
stores in result fields. Composite values are not rendered in full (Python
would print their `repr`); no claim below exercises a composite-valued
field, and string fields — the only ones the claims touch — round-trip
exactly. -/
def pyStrOfJ : JValue → String
  | JValue.str s => s
  | JValue.num lex => lex
  | JValue.bool true => "True"
  | JValue.bool false => "False"
  | JValue.null => "None"
  | JValue.arr _ => "[…]"
  | JValue.obj _ => "\x7b…\x7d"

/-- Model of `data.get(k, dflt)` for the string-typed fields of an extraction
record (the stored value rendered with `pyStrOfJ`). -/
def getStrD (d : JObj) (k : String) (dflt : String) : String :=
  match jGet d k with
  | some v => pyStrOfJ v
  | none => dflt

/-! ## A model of Python `json.loads`

Recursive-descent JSON parser over characters, fuelled by the input
length (the fuel only bounds recursion depth; it is always sufficient for
the concrete inputs evaluated below, and the theorems never depend on a
fuel bound). Mirrors CPython's strict decoder: JSON whitespace is space,
tab, LF, CR; strings require `"` quotes with the standard escapes and
reject raw control characters; `NaN`/`Infinity`/`-Infinity` are accepted;
trailing input (beyond whitespace) is rejected at the top level. -/

/-- JSON insignificant whitespace. -/
def jSkipWs (l : PyStr) : PyStr :=
  l.dropWhile (fun c => (c = ' ') || (c = '\t') || (c = '\n') || (c = '\r'))

def hexDigit? (c : Char) : Option Nat :=
  if '0' ≤ c ∧ c ≤ '9' then some (c.toNat - '0'.toNat)
  else if 'a' ≤ c ∧ c ≤ 'f' then some (c.toNat - 'a'.toNat + 10)
  else if 'A' ≤ c ∧ c ≤ 'F' then some (c.toNat - 'A'.toNat + 10)
  else none

/-- JSON string body after the opening quote; `acc` holds the decoded
characters reversed. The fuel (always instantiated with the input length
plus one, which is sufficient since each step consumes input) only serves
termination. Lone surrogate escapes (which Python keeps as surrogate code
units) fall outside Lean's `Char` and decode to `'\0'`; no claim involves
them. -/
def jStr : Nat → PyStr → PyStr → Option (String × PyStr)
  | 0, _, _ => none
  | _, [], _ => none
  | Nat.succ fuel, c :: t, acc =>
    if c = '"' then some (String.mk acc.reverse, t)
    else if c = '\\' then
      match t with
      | [] => none
      | e :: t2 =>
        if e = '"' then jStr fuel t2 ('"' :: acc)
        else if e = '\\' then jStr fuel t2 ('\\' :: acc)
        else if e = '/' then jStr fuel t2 ('/' :: acc)
        else if e = 'b' then jStr fuel t2 ('\x08' :: acc)
        else if e = 'f' then jStr fuel t2 ('\x0c' :: acc)
        else if e = 'n' then jStr fuel t2 ('\n' :: acc)
        else if e = 'r' then jStr fuel t2 ('\r' :: acc)
        else if e = 't' then jStr fuel t2 ('\t' :: acc)
        else if e = 'u' then
          match t2 with
          | a :: b :: c2 :: d2 :: t3 =>
            match hexDigit? a, hexDigit? b, hexDigit? c2, hexDigit? d2 with
            | some ha, some hb, some hc, some hd =>
              let n := ((ha * 16 + hb) * 16 + hc) * 16 + hd
              if 0xD800 ≤ n ∧ n ≤ 0xDBFF then
                match t3 with
                | e1 :: e2 :: a2 :: b2 :: c3 :: d3 :: t4 =>
                  if e1 = '\\' ∧ e2 = 'u' then
                    match hexDigit? a2, hexDigit? b2, hexDigit? c3, hexDigit? d3 with
                    | some m1, some m2, some m3, some m4 =>
                      let m := ((m1 * 16 + m2) * 16 + m3) * 16 + m4
                      if 0xDC00 ≤ m ∧ m ≤ 0xDFFF then
                        jStr fuel t4 (Char.ofNat (0x10000 + (n - 0xD800) * 0x400 + (m - 0xDC00)) :: acc)
                      else jStr fuel t3 (Char.ofNat n :: acc)
                    | _, _, _, _ => jStr fuel t3 (Char.ofNat n :: acc)
                  else jStr fuel t3 (Char.ofNat n :: acc)
                | _ => jStr fuel t3 (Char.ofNat n :: acc)
              else jStr fuel t3 (Char.ofNat n :: acc)
            | _, _, _, _ => none
          | _ => none
        else none
    else if c.toNat < 0x20 then none
    else jStr fuel t (c :: acc)

/-- Optional fraction part of a JSON number. -/
def jFracPart : PyStr → Option (PyStr × PyStr)
  | [] => some ([], [])
  | c :: t =>
    if c = '.' then
      let ds := t.takeWhile Char.isDigit
      if ds.isEmpty then none else some ('.' :: ds, t.dropWhile Char.isDigit)
    else some ([], c :: t)

/-- Optional exponent part of a JSON number. -/
def jExpPart : PyStr → Option (PyStr × PyStr)
  | [] => some ([], [])
  | c :: t =>
    if c = 'e' ∨ c = 'E' then
      let (sgn, t1) : PyStr × PyStr :=
        match t with
        | s :: t2 => if s = '+' ∨ s = '-' then ([s], t2) else ([], s :: t2)
        | [] => ([], [])
      let ds := t1.takeWhile Char.isDigit
      if ds.isEmpty then none else some (c :: (sgn ++ ds), t1.dropWhile Char.isDigit)
    else some ([], c :: t)

/-- JSON number (returned as its lexeme). Leading zeros are rejected as in
strict JSON: after `0` no further integer digit is consumed. -/
def jNum (l : PyStr) : Option (String × PyStr) :=
  let (sgn, l1) : PyStr × PyStr :=
    match l with
    | c :: t => if c = '-' then (['-'], t) else ([], c :: t)
    | [] => ([], [])
  match l1 with
  | [] => none
  | c :: t =>
    if c = '0' then
      match jFracPart t with
      | some (fr, r1) =>
        match jExpPart r1 with
        | some (ex, r2) => some (String.mk (sgn ++ [c] ++ fr ++ ex), r2)
        | none => none
      | none => none
    else if c.isDigit then
      let ds := t.takeWhile Char.isDigit
      let r0 := t.dropWhile Char.isDigit
      match jFracPart r0 with
      | some (fr, r1) =>
        match jExpPart r1 with
        | some (ex, r2) => some (String.mk (sgn ++ [c] ++ ds ++ fr ++ ex), r2)
        | none => none
      | none => none
    else none

mutual

/-- One JSON value, starting at (possibly padded) input. -/
def jVal : Nat → PyStr → Option (JValue × PyStr)
  | 0, _ => none
  | Nat.succ fuel, l =>
    let l1 := jSkipWs l
    match l1 with
    | [] => none
    | c :: t =>
      if c = '"' then
        match jStr (t.length + 1) t [] with
        | some (s, r) => some (JValue.str s, r)
        | none => none
      else if c = '\x7b' then jObjBody fuel t
      else if c = '[' then jArrBody fuel t
      else if ("true".data).isPrefixOf l1 then some (JValue.bool true, l1.drop 4)
      else if ("false".data).isPrefixOf l1 then some (JValue.bool false, l1.drop 5)
      else if ("null".data).isPrefixOf l1 then some (JValue.null, l1.drop 4)
      else if ("NaN".data).isPrefixOf l1 then some (JValue.num "NaN", l1.drop 3)
      else if ("Infinity".data).isPrefixOf l1 then some (JValue.num "Infinity", l1.drop 8)
      else if ("-Infinity".data).isPrefixOf l1 then some (JValue.num "-Infinity", l1.drop 9)
      else
        match jNum l1 with
        | some (lex, r) => some (JValue.num lex, r)
        | none => none

/-- Object body after the opening brace. -/
def jObjBody : Nat → PyStr → Option (JValue × PyStr)
  | 0, _ => none
  | Nat.succ fuel, l =>
    let l1 := jSkipWs l
    match l1 with
    | [] => none
    | c :: t =>
      if c = '\x7d' then some (JValue.obj [], t)
      else jMembers fuel l1 []

/-- Comma-separated `"key": value` members, then the closing brace. -/
def jMembers : Nat → PyStr → List (String × JValue) → Option (JValue × PyStr)
  | 0, _, _ => none
  | Nat.succ fuel, l, acc =>
    let l1 := jSkipWs l
    match l1 with
    | [] => none
    | c :: t =>
      if c = '"' then
        match jStr (t.length + 1) t [] with
        | some (k, r) =>
          match jSkipWs r with
          | [] => none
          | d :: r2 =>
            if d = ':' then
              match jVal fuel r2 with
              | some (v, r3) =>
                match jSkipWs r3 with
                | [] => none
                | e :: r5 =>
                  if e = ',' then jMembers fuel r5 (acc ++ [(k, v)])
                  else if e = '\x7d' then some (JValue.obj (acc ++ [(k, v)]), r5)
                  else none
              | none => none
            else none
        | none => none
      else none

/-- Array body after the opening bracket. -/
def jArrBody : Nat → PyStr → Option (JValue × PyStr)
  | 0, _ => none
  | Nat.succ fuel, l =>
    let l1 := jSkipWs l
    match l1 with
    | [] => none
    | c :: t =>
      if c = ']' then some (JValue.arr [], t)
      else jElems fuel l1 []

/-- Comma-separated array elements, then the closing bracket. -/
def jElems : Nat → PyStr → List JValue → Option (JValue × PyStr)
  | 0, _, _ => none
  | Nat.succ fuel, l, acc =>
    match jVal fuel l with
    | some (v, r) =>
      match jSkipWs r with
      | [] => none
      | c :: t =>
        if c = ',' then jElems fuel t (acc ++ [v])
        else if c = ']' then some (JValue.arr (acc ++ [v]), t)
        else none
    | none => none

end

/-- Python `json.loads`: parse one value, allow only trailing whitespace. -/
def jsonLoads (l : PyStr) : Option JValue :=
  match jVal (4 * l.length + 8) l with
  | some (v, rest) => if (jSkipWs rest).isEmpty then some v else none
  | none => none

/-- Model of `json.loads` followed by `isinstance(data, dict)`: the recovered
dictionary, or `none` on a parse failure or a non-dict value. -/
def jsonLoadsDict (l : PyStr) : Option JObj :=
  match jsonLoads l with
  | some (JValue.obj o) => some o
  | _ => none

/-! ## A model of Python `ast.literal_eval`

Strategy 2 of `parse_extraction_json` feeds the stripped text to
`ast.literal_eval` to handle quote-style variants JSON rejects. The model
covers the literal forms agent output takes: single- or double-quoted
strings with the usual escapes, decimal/hex/octal/binary numbers with an
optional single sign, `True`/`False`/`None`, lists, tuples, sets
(modelled as arrays) and dicts with trailing commas allowed. Dict keys
are stored via `pyStrOfJ` (string keys verbatim); exotic forms (string
prefixes, implicit concatenation, complex numbers, nested unary signs)
are rejected, as elsewhere only failure of this strategy is relied on. -/

/-- Whitespace `ast.literal_eval` skips between tokens. -/
def pSkipWs (l : PyStr) : PyStr :=
  l.dropWhile (fun c => (c = ' ') || (c = '\t') || (c = '\n') || (c = '\r') || (c = '\x0c'))

/-- Python string-literal body with quote character `q`; unknown escapes
keep the backslash (as Python does), a raw newline is a syntax error. -/
def pStrBody : Nat → Char → PyStr → PyStr → Option (String × PyStr)
  | 0, _, _, _ => none
  | _, _, [], _ => none
  | Nat.succ fuel, q, c :: t, acc =>
    if c = q then some (String.mk acc.reverse, t)
    else if c = '\\' then
      match t with
      | [] => none
      | e :: t2 =>
        if e = '\\' then pStrBody fuel q t2 ('\\' :: acc)
        else if e = '\'' then pStrBody fuel q t2 ('\'' :: acc)
        else if e = '"' then pStrBody fuel q t2 ('"' :: acc)
        else if e = 'a' then pStrBody fuel q t2 ('\x07' :: acc)
        else if e = 'b' then pStrBody fuel q t2 ('\x08' :: acc)
        else if e = 'f' then pStrBody fuel q t2 ('\x0c' :: acc)
        else if e = 'n' then pStrBody fuel q t2 ('\n' :: acc)
        else if e = 'r' then pStrBody fuel q t2 ('\r' :: acc)
        else if e = 't' then pStrBody fuel q t2 ('\t' :: acc)
        else if e = 'v' then pStrBody fuel q t2 ('\x0b' :: acc)
        else if e = '\n' then pStrBody fuel q t2 acc
        else if e = 'x' then
          match t2 with
          | a :: b :: t3 =>
            match hexDigit? a, hexDigit? b with
            | some ha, some hb => pStrBody fuel q t3 (Char.ofNat (ha * 16 + hb) :: acc)
            | _, _ => none
          | _ => none
        else if e = 'u' then
          match t2 with
          | a :: b :: c2 :: d2 :: t3 =>
            match hexDigit? a, hexDigit? b, hexDigit? c2, hexDigit? d2 with
            | some ha, some hb, some hc, some hd =>
              pStrBody fuel q t3 (Char.ofNat (((ha * 16 + hb) * 16 + hc) * 16 + hd) :: acc)
            | _, _, _, _ => none
          | _ => none
        else pStrBody fuel q t2 (e :: '\\' :: acc)
    else if c = '\n' then none
    else pStrBody fuel q t (c :: acc)

/-- Python numeric literal without sign (decimal int/float with optional
exponent, or a hex/octal/binary integer), returned as its lexeme. -/
def pyNumCore (l : PyStr) : Option (PyStr × PyStr) :=
  match l with
  | [] => none
  | c :: t =>
    if c = '0' ∧ (t.head? = some 'x' ∨ t.head? = some 'X') then
      let ds := (t.drop 1).takeWhile (fun d => (hexDigit? d).isSome)
      if ds.isEmpty then none
      else some (c :: t.take 1 ++ ds, (t.drop 1).dropWhile (fun d => (hexDigit? d).isSome))
    else if c = '0' ∧ (t.head? = some 'o' ∨ t.head? = some 'O') then
      let ds := (t.drop 1).takeWhile (fun d => '0' ≤ d ∧ d ≤ '7')
      if ds.isEmpty then none
      else some (c :: t.take 1 ++ ds, (t.drop 1).dropWhile (fun d => '0' ≤ d ∧ d ≤ '7'))
    else if c = '0' ∧ (t.head? = some 'b' ∨ t.head? = some 'B') then
      let ds := (t.drop 1).takeWhile (fun d => d = '0' ∨ d = '1')
      if ds.isEmpty then none
      else some (c :: t.take 1 ++ ds, (t.drop 1).dropWhile (fun d => d = '0' ∨ d = '1'))
    else if c = '.' then
      let ds := t.takeWhile Char.isDigit
      if ds.isEmpty then none
      else
        match jExpPart (t.dropWhile Char.isDigit) with
        | some (ex, r) => some ('.' :: ds ++ ex, r)
        | none => none
    else if c.isDigit then
      let ds := t.takeWhile Char.isDigit
      let r0 := t.dropWhile Char.isDigit
      let (fr, r1) : PyStr × PyStr :=
        match r0 with
        | '.' :: t1 => ('.' :: t1.takeWhile Char.isDigit, t1.dropWhile Char.isDigit)
        | _ => ([], r0)
      match jExpPart r1 with
      | some (ex, r2) => some (c :: ds ++ fr ++ ex, r2)
      | none => none
    else none

mutual

/-- One Python literal, with surrounding whitespace allowed. -/
def pVal : Nat → PyStr → Option (JValue × PyStr)
  | 0, _ => none
  | Nat.succ fuel, l =>
    let l1 := pSkipWs l
    match l1 with
    | [] => none
    | c :: t =>
      if c = '\'' ∨ c = '"' then
        match pStrBody (t.length + 1) c t [] with
        | some (s, r) => some (JValue.str s, r)
        | none => none
      else if c = '[' then
        match pSkipWs t with
        | ']' :: r => some (JValue.arr [], r)
        | t1 => match pElems fuel ']' t1 [] with
                | some (vs, r) => some (JValue.arr vs, r)
                | none => none
      else if c = '(' then
        match pSkipWs t with
        | ')' :: r => some (JValue.arr [], r)
        | t1 => match pElems fuel ')' t1 [] with
                | some (vs, r) => some (JValue.arr vs, r)
                | none => none
      else if c = '\x7b' then
        match pSkipWs t with
        | '\x7d' :: r => some (JValue.obj [], r)
        | t1 => pBraceRest fuel t1
      else if ("True".data).isPrefixOf l1 then some (JValue.bool true, l1.drop 4)
      else if ("False".data).isPrefixOf l1 then some (JValue.bool false, l1.drop 5)
      else if ("None".data).isPrefixOf l1 then some (JValue.null, l1.drop 4)
      else if c = '-' ∨ c = '+' then
        match pyNumCore (pSkipWs t) with
        | some (lex, r) => some (JValue.num (String.mk (c :: lex)), r)
        | none => none
      else
        match pyNumCore l1 with
        | some (lex, r) => some (JValue.num (String.mk lex), r)
        | none => none

/-- Comma-separated elements up to `closer` (trailing comma allowed). -/
def pElems : Nat → Char → PyStr → List JValue → Option (List JValue × PyStr)
  | 0, _, _, _ => none
  | Nat.succ fuel, closer, l, acc =>
    match pVal fuel l with
    | some (v, r) =>
      match pSkipWs r with
      | [] => none
      | c :: t =>
        if c = closer then some (acc ++ [v], t)
        else if c = ',' then
          match pSkipWs t with
          | c2 :: t2 =>
            if c2 = closer then some (acc ++ [v], t2)
            else pElems fuel closer (c2 :: t2) (acc ++ [v])
          | [] => none
        else none
    | none => none

/-- Inside a non-empty `{...}`: a dict if the first literal is followed by
a colon, otherwise a set (modelled as an array). -/
def pBraceRest : Nat → PyStr → Option (JValue × PyStr)
  | 0, _ => none
  | Nat.succ fuel, l =>
    match pVal fuel l with
    | some (k, r) =>
      match pSkipWs r with
      | [] => none
      | c :: t =>
        if c = ':' then
          match pVal fuel t with
          | some (v, r2) => pDictRest fuel r2 [(pyStrOfJ k, v)]
          | none => none
        else if c = '\x7d' then some (JValue.arr [k], t)
        else if c = ',' then
          match pSkipWs t with
          | '\x7d' :: t2 => some (JValue.arr [k], t2)
          | t1 => match pElems fuel '\x7d' t1 [k] with
                  | some (vs, r2) => some (JValue.arr vs, r2)
                  | none => none
        else none
    | none => none

/-- After a parsed `key: value` member: a comma continues (or trails), a
closing brace finishes the dict. -/
def pDictRest : Nat → PyStr → List (String × JValue) → Option (JValue × PyStr)
  | 0, _, _ => none
  | Nat.succ fuel, l, acc =>
    match pSkipWs l with
    | [] => none
    | c :: t =>
      if c = '\x7d' then some (JValue.obj acc, t)
      else if c = ',' then
        match pSkipWs t with
        | '\x7d' :: t2 => some (JValue.obj acc, t2)
        | t1 =>
          match pVal fuel t1 with
          | some (k, r) =>
            match pSkipWs r with
            | ':' :: r2 =>
              match pVal fuel r2 with
              | some (v, r3) => pDictRest fuel r3 (acc ++ [(pyStrOfJ k, v)])
              | none => none
            | _ => none
          | none => none
      else none

end

/-- Python `ast.literal_eval`: parse one literal, allow only trailing
whitespace. -/
def pyLiteralEval (l : PyStr) : Option JValue :=
  match pVal (4 * l.length + 8) l with
  | some (v, rest) => if (pSkipWs rest).isEmpty then some v else none
  | none => none

/-! ## Recovery strategies (`parse_extraction_json`, `src/icf/extract.py`) -/

/-- Index of the first occurrence of `pat` in the input, scanning from
offset `i`. -/
def findSubAux (pat : PyStr) : PyStr → Nat → Option Nat
  | [], i => if pat.isEmpty then some i else none
  | c :: t, i => if pat.isPrefixOf (c :: t) then some i else findSubAux pat t (i + 1)

/-- The backtick character. -/
def btick : Char := Char.ofNat 96

/-- A triple backtick fence marker. -/
def tick3 : PyStr := [btick, btick, btick]

/-- The inner text of the first markdown code fence, already stripped:
the model of `re.search(r"` ``(?:json)?\s*\n?(.*?)\n?`` `", raw, re.DOTALL)`
followed by `.group(1).strip()`. After the opening fence an optional
literal `json` tag is skipped; the group runs up to the next closing
fence, and the surrounding `\s*\n?` / `\n?` whitespace the regex trims is
subsumed by the final `strip()`. -/
def mdFenceInner (raw : PyStr) : Option PyStr :=
  match findSubAux tick3 raw 0 with
  | none => none
  | some i =>
    let after := raw.drop (i + 3)
    let inner := if ("json".data).isPrefixOf after then after.drop 4 else after
    match findSubAux tick3 inner 0 with
    | none => none
    | some k => some (stripWsL (inner.take k))

/-- Strategy 1: `json.loads` on the stripped text, accepted if a dict. -/
def strategy1 (stripped : PyStr) : Option JObj := jsonLoadsDict stripped

/-- Strategy 2: `ast.literal_eval` on the stripped text, accepted if a
dict. -/
def strategy2 (stripped : PyStr) : Option JObj :=
  match pyLiteralEval stripped with
  | some (JValue.obj o) => some o
  | _ => none

/-- Strategy 3: JSON inside a markdown code fence. -/
def strategy3 (raw : PyStr) : Option JObj :=
  match mdFenceInner raw with
  | some inner => jsonLoadsDict inner
  | none => none

/-- The loop of `_extract_brace_candidates`: `depth` is the running brace
depth (an `Int`: stray closing braces drive it negative exactly as in the
source), `cur` the candidate being collected (reversed) from the last
depth-0 opening brace, `out` the finished candidates (reversed). -/
def braceAux : PyStr → Int → Option PyStr → List PyStr → List PyStr
  | [], _, _, out => out.reverse
  | c :: t, depth, cur, out =>
    if c = '\x7b' then
      if depth = 0 then braceAux t (depth + 1) (some [c]) out
      else braceAux t (depth + 1) (cur.map (fun b => c :: b)) out
    else if c = '\x7d' then
      if depth - 1 = 0 then
        match cur with
        | some buf => braceAux t (depth - 1) none ((c :: buf).reverse :: out)
        | none => braceAux t (depth - 1) none out
      else braceAux t (depth - 1) (cur.map (fun b => c :: b)) out
    else braceAux t depth (cur.map (fun b => c :: b)) out

/-- Model of `_extract_brace_candidates`: all top-level `{…}` substrings, in order
of appearance. -/
def extract_brace_candidates (text : PyStr) : List PyStr :=
  braceAux text 0 none []

/-- A candidate that parses as a dict and carries a `"status"` key. -/
def goodCand (cand : PyStr) : Bool :=
  match jsonLoadsDict cand with
  | some d => hasKey d "status"
  | none => false

/-- A candidate that parses as a dict. -/
def parseCand (cand : PyStr) : Bool :=
  (jsonLoadsDict cand).isSome

/-- Strategies 4+5: walk the reversed candidate list; return the first
parseable dict with a `"status"` key, remembering the first parseable
dict (`anyValid`, set only once) as fallback. -/
def scan45 : List PyStr → Option JObj → Option JObj
  | [], anyValid => anyValid
  | c :: rest, anyValid =>
    match jsonLoadsDict c with
    | some d =>
      if hasKey d "status" then some d
      else scan45 rest (match anyValid with | none => some d | some a => some a)
    | none => scan45 rest anyValid

/-- Strategies 4+5 applied to the raw text. -/
def stage45 (raw : PyStr) : Option JObj :=
  scan45 (extract_brace_candidates raw).reverse none

/-- The strategy-6 fallback record wrapping free-form text. -/
def fallbackRecord (stripped : PyStr) : JObj :=
  [("status", JValue.str "PARTIAL"),
   ("answer", JValue.str (String.mk stripped)),
   ("filled_template", JValue.str ""),
   ("evidence", JValue.arr []),
   ("confidence", JValue.str "LOW"),
   ("notes", JValue.str "RLM returned free-form text instead of JSON. Content may need manual review.")]

/-- Model of `parse_extraction_json` over characters: strategies 1–6 in order. -/
def parseExtractionCore (raw : PyStr) : Option JObj :=
  if raw.isEmpty then none
  else
    let stripped := stripWsL raw
    match strategy1 stripped with
    | some d => some d
    | none =>
      match strategy2 stripped with
      | some d => some d
      | none =>
        match strategy3 raw with
        | some d => some d
        | none =>
          match stage45 raw with
          | some d => some d
          | none =>
            if 20 < stripped.length then some (fallbackRecord stripped) else none

/-- Model of `parse_extraction_json` from `src/icf/extract.py`. -/
def parse_extraction_json (raw : String) : Option JObj :=
  parseExtractionCore raw.data

/-! ## Data model (`src/icf/types.py`) -/

/-- Model of `Evidence`: a quoted excerpt supporting an extraction. -/
structure Evidence where
  quote : String
  page : String
  sectionLabel : String
  deriving DecidableEq

/-- Model of `TemplateVariable`: one ICF template section to extract. -/
structure TemplateVariable where
  section_id : String
  heading : String
  sub_section : Option String
  required : Bool
  instructions : String
  required_text : String
  suggested_text : String
  complexity : List String
  protocol_mapping : String
  sponsor_mapping : String
  is_in_protocol : Bool
  partially_in_protocol : Bool
  is_standard_text : Bool
  notes : String
  csv_status : String
  deriving DecidableEq

/-- Model of `ExtractionResult`: the router's one result per work item. The Python
dataclass annotates `status`, `answer`, … as `str`; values recovered from
agent output are stored through `pyStrOfJ` (string values verbatim). -/
structure ExtractionResult where
  section_id : String
  heading : String
  sub_section : Option String
  status : String
  answer : String
  filled_template : String
  evidence : List Evidence
  confidence : String
  notes : String
  raw_response : String
  error : Option String
  deriving DecidableEq

/-- Model of `ValidationResult`: per-extraction validation output. The reading
grade (a Python float from the external `textstat`) is modelled as an
exact rational. -/
structure ValidationResult where
  section_id : String
  quotes_verified : List Bool
  reading_grade_level : Option ℚ
  issues : List String
  deriving DecidableEq

/-- A raised Python exception, by type name and message;
`f"{type(e).__name__}: {e}"` renders it. -/
structure PyErr where
  name : String
  msg : String
  deriving DecidableEq

def errText (e : PyErr) : String := e.name ++ ": " ++ e.msg

/-! ## Extraction router (`ExtractionEngine`, `src/icf/extract.py`)

The external RLM agent call (`rlm.completion`) is modelled as a function
from the protocol text and the work item to either a raised failure or
the raw response text; everything after the call is embedded from the
source. -/

/-- Model of `_make_standard_result`. -/
def make_standard_result (v : TemplateVariable) : ExtractionResult :=
  ⟨v.section_id, v.heading, v.sub_section, "STANDARD_TEXT", v.required_text,
   v.required_text, [], "HIGH", "Standard required text - no extraction needed.", "", none⟩

/-- Model of `_make_skipped_result`. -/
def make_skipped_result (v : TemplateVariable) : ExtractionResult :=
  ⟨v.section_id, v.heading, v.sub_section, "SKIPPED", "", "", [], "N/A",
   "Section marked as 'Not in protocol - requires manual entry'. Use suggested text from template as a starting point.",
   "", none⟩

/-- The evidence loop of `_parse_response`: iterate `data.get("evidence", [])`,
keeping dict entries. A non-list `"evidence"` value is modelled as empty:
iterating a string or dict yields no dict entries in Python either, and a
non-iterable value raises a `TypeError` that the enclosing
`_run_rlm_extraction` catch-all turns into an ERROR result (not exercised
by any claim). -/
def evidenceOf (d : JObj) : List Evidence :=
  match jGet d "evidence" with
  | some (JValue.arr l) =>
    l.filterMap (fun e =>
      match e with
      | JValue.obj o => some ⟨getStrD o "quote" "", getStrD o "page" "", getStrD o "section" ""⟩
      | _ => none)
  | _ => []

/-- Model of `_parse_response`: recover a record from the raw text or return the
parse-failure ERROR result. -/
def parse_response (raw : String) (v : TemplateVariable) : ExtractionResult :=
  match parse_extraction_json raw with
  | none =>
    ⟨v.section_id, v.heading, v.sub_section, "ERROR", "", "", [], "LOW",
     "Failed to parse JSON from RLM response.", raw, some "JSON parse failure"⟩
  | some d =>
    ⟨getStrD d "section_id" v.section_id, v.heading, v.sub_section,
     getStrD d "status" "ERROR", getStrD d "answer" "", getStrD d "filled_template" "",
     evidenceOf d, getStrD d "confidence" "LOW", getStrD d "notes" "", raw, none⟩

/-- Model of `_run_rlm_extraction`: the `try`/`except` around the agent call; a
raised failure becomes the catch-all ERROR result. -/
def run_rlm_extraction (resp : Except PyErr String) (v : TemplateVariable) : ExtractionResult :=
  match resp with
  | Except.error e =>
    ⟨v.section_id, v.heading, v.sub_section, "ERROR", "", "", [], "LOW", "", "", some (errText e)⟩
  | Except.ok raw => parse_response raw v

/-- Model of `extract_variable`: the routing logic (standard text / skip / agent). -/
def extract_variable (agentOf : String → TemplateVariable → Except PyErr String)
    (protocol_text : String) (v : TemplateVariable) : ExtractionResult :=
  if v.is_standard_text then make_standard_result v
  else if !v.is_in_protocol && !v.partially_in_protocol then make_skipped_result v
  else run_rlm_extraction (agentOf protocol_text v) v

/-! ## Validation engine (`src/icf/validate.py`) -/

/-- Model of `re.split(r"[,.]", ·)`: split at every comma or period, keeping empty
pieces. -/
def splitCPAux : PyStr → PyStr → List PyStr
  | [], acc => [acc.reverse]
  | c :: t, acc =>
    if c = ',' ∨ c = '.' then acc.reverse :: splitCPAux t []
    else splitCPAux t (c :: acc)

def splitCommaPeriod (l : PyStr) : List PyStr := splitCPAux l []

/-- Model of `verify_quote` over characters. The 50 % phrase threshold
`found / len(phrases) >= 0.5` is expressed exactly as
`len(phrases) ≤ 2 * found` (the float division cannot misround across the
representable 0.5 boundary at these list sizes). The `threshold`
parameter of the Python function is unused there and omitted here. -/
def verifyCore (q p : PyStr) : Bool :=
  if q.isEmpty || p.isEmpty then false
  else
    let nq := normaliseL q
    let np := normaliseL p
    if substrB nq np then true
    else
      let pfx := nq.take 120
      if decide (30 < pfx.length) && substrB pfx np then true
      else
        let phrases := ((splitCommaPeriod nq).map stripWsL).filter (fun ph => 15 < ph.length)
        if !phrases.isEmpty then
          decide (phrases.length ≤ 2 * (phrases.filter (fun ph => substrB ph np)).length)
        else false

/-- Model of `verify_quote` from `src/icf/validate.py`. -/
def verify_quote (quote : String) (protocol_text : String) : Bool :=
  verifyCore quote.data protocol_text.data

/-- Model of `check_reading_level`, with the external `textstat` capability passed
in as `flesch` (`fun _ => none` models the `ImportError` path). -/
def check_reading_level (flesch : String → Option ℚ) (text : String) : Option ℚ :=
  if text.isEmpty || (pySplit text.data).length < 10 then none
  else flesch text

/-- Model of `READING_LEVEL_WARN = 8.0`. -/
def READING_LEVEL_WARN : ℚ := 8

/-- The statuses `validate_extractions` skips. -/
def nonExtractable (s : String) : Bool :=
  (s = "SKIPPED") || (s = "ERROR") || (s = "NOT_FOUND") || (s = "STANDARD_TEXT")

/-- Model of `ev.quote[:80].replace("\n", " ")`. -/
def truncQuote (q : String) : String :=
  String.mk ((q.data.take 80).map (fun c => if c = '\n' then ' ' else c))

/-- The diagnostic appended for an unverified quote. -/
def quoteIssue (q : String) : String :=
  "Quote not verified in protocol: \"" ++ truncQuote q ++ "...\""

/-- Model of `validate_extractions`, with the external readability scorer
(`flesch`) and Python's float formatting of the grade in the warning
message (`fmtGrade`, for `f"{grade:.1f}"`) passed in as parameters. -/
def validate_extractions (flesch : String → Option ℚ) (fmtGrade : ℚ → String) :
    List ExtractionResult → String → List ValidationResult
  | [], _ => []
  | ext :: rest, protocol_text =>
    (if nonExtractable ext.status then
      ⟨ext.section_id, [], none, []⟩
    else
      let quotes_ok := ext.evidence.map (fun ev => verify_quote ev.quote protocol_text)
      let qIssues := ext.evidence.filterMap (fun ev =>
        if verify_quote ev.quote protocol_text then none else some (quoteIssue ev.quote))
      let grade := check_reading_level flesch ext.answer
      let gIssues :=
        match grade with
        | some g =>
          if READING_LEVEL_WARN < g then
            ["Reading level (" ++ fmtGrade g ++ ") exceeds Grade 8 target."]
          else []
        | none => []
      ⟨ext.section_id, quotes_ok, grade, qIssues ++ gIssues⟩) ::
    validate_extractions flesch fmtGrade rest protocol_text

/-! ## Template registry (`src/icf/registry.py`)

The CSV file handling (existence check, `csv.reader`, header skip) is
external; the embedding takes the parsed data rows (each a list of
cells, header already consumed). `html.unescape` is passed in as a
parameter. -/

abbrev Row := List String

def lowerStr (s : String) : String := String.mk (s.data.map pyLower)

def stripStr (s : String) : String := String.mk (stripWsL s.data)

/-- Model of `_parse_complexity`. -/
def parse_complexity (raw : String) : List String :=
  let r := stripStr raw
  if r.isEmpty then []
  else if r.data.head? = some '[' then
    match pyLiteralEval r.data with
    | some (JValue.arr xs) => xs.map pyStrOfJ
    | _ => [r]
  else [r]

/-- Model of `_classify_availability`: availability from the space-joined,
lowercased tag text. -/
def classify_availability (complexity : List String) : Bool × Bool × Bool :=
  let tags_lower := complexity.map lowerStr
  let joined := String.intercalate " " tags_lower
  let has_not_in := substrB ("not in protocol").data joined.data
  let has_mapping := ["easy mapping", "moderate mapping", "complex mapping"].any
    (fun kw => substrB kw.data joined.data)
  let has_standard := substrB ("standard text").data joined.data
  let has_potentially := substrB ("potentially in protocol").data joined.data
  if has_standard then (true, false, true)
  else if has_not_in && !has_mapping && !has_potentially then (false, false, false)
  else if has_not_in && (has_mapping || has_potentially) then (true, true, false)
  else (true, false, false)

/-- Model of `_parse_required`. -/
def parse_required (raw : String) : Bool :=
  let lower := lowerStr (stripStr raw)
  if ("required".data).isPrefixOf lower.data then true
  else if ("optional".data).isPrefixOf lower.data then false
  else substrB "required".data lower.data && !(substrB "optional".data lower.data)

/-- The variable built from one kept CSV row (the body of the row loop of
`load_template_registry`). -/
def buildVar (unescape : String → String) (row : Row) : TemplateVariable :=
  let csv_status := stripStr (row.getD 1 "")
  let complexity := parse_complexity (stripStr (row.getD 2 ""))
  let avail := classify_availability complexity
  { section_id := stripStr (row.getD 0 "")
    heading := unescape (stripStr (row.getD 3 ""))
    sub_section :=
      let s := unescape (stripStr (row.getD 4 ""))
      if s.isEmpty then none else some s
    required := parse_required (stripStr (row.getD 5 ""))
    instructions := unescape (stripStr (row.getD 6 ""))
    required_text := unescape (stripStr (row.getD 7 ""))
    suggested_text := if 8 < row.length then unescape (stripStr (row.getD 8 "")) else ""
    complexity := complexity
    protocol_mapping := if 11 < row.length then unescape (stripStr (row.getD 11 "")) else ""
    sponsor_mapping := if 12 < row.length then unescape (stripStr (row.getD 12 "")) else ""
    is_in_protocol := avail.1
    partially_in_protocol := avail.2.1
    is_standard_text := avail.2.2
    notes := if 14 < row.length then unescape (stripStr (row.getD 14 "")) else ""
    csv_status := csv_status }

/-- The row loop of `load_template_registry`: skip rows with fewer than 8
cells, drop rows whose status cell is (case-insensitively) `excluded`,
build a variable from each remaining row. -/
def processRows (unescape : String → String) : List Row → List TemplateVariable
  | [] => []
  | row :: rest =>
    if row.length < 8 then processRows unescape rest
    else if lowerStr (stripStr (row.getD 1 "")) = "excluded" then processRows unescape rest
    else buildVar unescape row :: processRows unescape rest

/-- Model of `load_template_registry` on the parsed data rows: the final
`if not variables: raise ValueError(...)` becomes the `Except.error`
branch. -/
def load_template_registry (unescape : String → String) (rows : List Row) :
    Except String (List TemplateVariable) :=
  let vars := processRows unescape rows
  if vars.isEmpty then Except.error "No variables loaded from CSV"
  else Except.ok vars

/-! ## Pipeline orchestration (`ICFPipeline.run`, `src/icf/pipeline.py`)

Stages 3–5 of an uninterrupted run over an already-ingested protocol and
already-loaded registry: one router call per work item in input order,
then validation of the accumulated list. Console printing, wall-clock
timing, the summary dictionary and the file-writing assembly stage are
outside the extraction/validation data flow the claims address. -/

def pipelineRun (agentOf : String → TemplateVariable → Except PyErr String)
    (flesch : String → Option ℚ) (fmtGrade : ℚ → String)
    (protocol_text : String) (vars : List TemplateVariable) :
    List ExtractionResult × List ValidationResult :=
  let extractions := vars.map (extract_variable agentOf protocol_text)
  (extractions, validate_extractions flesch fmtGrade extractions protocol_text)

/-! ## Concrete instances used by the examples, witnesses and counterexamples -/

/-- A work item marked available in the protocol (agent route). -/
def Vroute : TemplateVariable :=
  ⟨"4.2", "Study Procedures", none, true, "", "", "", ["Easy mapping"], "", "",
   true, false, false, "", "Included"⟩

/-- Agent output with three brace candidates: a plain object, a
`"status"`-bearing object, then another plain object. -/
def W3 : String :=
  "noise \x7b\"x\": 1\x7d mid \x7b\"status\": \"FOUND\", \"answer\": \"yes\"\x7d tail \x7b\"y\": 2\x7d"

/-- The external readability scorer when `textstat` is unavailable. -/
def fleschNone : String → Option ℚ := fun _ => none

/-- Degenerate grade formatting (never reached when the grade is absent). -/
def fmtGradeStub : ℚ → String := fun _ => ""

/-- A FOUND extraction with one verifiable and one fabricated quote. -/
def E8 : ExtractionResult :=
  ⟨"7.1", "Costs", none, "FOUND", "short answer", "",
   [⟨"the sky is blue", "2", ""⟩, ⟨"purple monkeys", "3", ""⟩], "HIGH", "", "", none⟩

/-- The reference text for the validation examples. -/
def P8 : String := "we note the sky is blue today"

/-- The six defined result statuses. -/
def sixStatus (s : String) : Bool :=
  (s = "FOUND") || (s = "PARTIAL") || (s = "NOT_FOUND") || (s = "SKIPPED") ||
  (s = "STANDARD_TEXT") || (s = "ERROR")

/-- An agent that answers with a structured record carrying an undefined
status kind. -/
def agWeird : String → TemplateVariable → Except PyErr String :=
  fun _ _ => Except.ok "\x7b\"status\": \"WEIRD\"\x7d"

/-- An agent whose structured record overrides the join key. -/
def agOverride : String → TemplateVariable → Except PyErr String :=
  fun _ _ => Except.ok "\x7b\"status\": \"FOUND\", \"section_id\": \"999\"\x7d"

/-! ## Supporting lemmas -/

/-- The empty needle is a substring of everything (Python `"" in s`). -/
theorem substrB_nil (l : PyStr) : substrB [] l = true := by
  cases l <;> rfl

/-- A nonempty string has a nonempty character list. -/
theorem data_ne_nil {s : String} (h : s ≠ "") : s.data.isEmpty = false := by
  cases s with
  | mk l =>
    cases l with
    | nil => exact absurd rfl h
    | cons c t => rfl

/-- Whitespace characters are fixed by lowercasing. -/
theorem pyLower_ws {c : Char} (h : isPyWs c = true) : pyLower c = c := by
  have hm : c ∈ pyWsChars := List.elem_iff.mp h
  fin_cases hm <;> decide

/-- Splitting an all-whitespace text yields no words. -/
theorem pySplitAux_all_ws : ∀ l : PyStr, (∀ c ∈ l, isPyWs c = true) → pySplitAux l [] = [] := by
  intro l h
  induction l with
  | nil => rfl
  | cons c t ih =>
    have hc : isPyWs c = true := h c (List.mem_cons_self c t)
    simp only [pySplitAux, hc, if_true, List.isEmpty_nil]
    exact ih (fun d hd => h d (List.mem_cons_of_mem c hd))

/-- Normalising an all-whitespace text yields the empty string. -/
theorem normaliseL_all_ws (l : PyStr) (h : ∀ c ∈ l, isPyWs c = true) :
    normaliseL l = [] := by
  have hmap : ∀ c ∈ l.map pyLower, isPyWs c = true := by
    intro c hc
    rcases List.mem_map.mp hc with ⟨a, ha, rfl⟩
    rw [pyLower_ws (h a ha)]
    exact h a ha
  unfold normaliseL pySplit
  rw [pySplitAux_all_ws _ hmap]
  rfl

/-! ## C9: a whitespace-only quote always verifies -/

/-- C9. For every non-empty quote consisting only of whitespace and every
non-empty reference, `verify_quote` returns `true`: normalisation reduces
the quote to the empty string, which is contained in every normalised
reference, so the exact-containment branch passes. -/
theorem verify_quote_whitespace_only (q r : String) (hq : q ≠ "") (hr : r ≠ "")
    (hws : q.data.all isPyWs = true) : verify_quote q r = true := by
  have hq' : q.data.isEmpty = false := data_ne_nil hq
  have hr' : r.data.isEmpty = false := data_ne_nil hr
  have hn : normaliseL q.data = [] :=
    normaliseL_all_ws _ (fun c hc => List.all_eq_true.mp hws c hc)
  unfold verify_quote verifyCore
  simp [hq', hr', hn, substrB_nil]

/-- Witness for C9 at the concrete quote `" \t "` and reference `"hello"`. -/
theorem verify_quote_whitespace_only_witness :
    (" \t " ≠ "" ∧ "hello" ≠ "" ∧ " \t ".data.all isPyWs = true) ∧
    verify_quote " \t " "hello" = true :=
  ⟨⟨by decide, by decide, by decide⟩,
   verify_quote_whitespace_only " \t " "hello" (by decide) (by decide) (by decide)⟩

/-! ## C7: exact-containment branch of quote verification -/

/-- C7 (amended). For non-empty `Q` and non-empty `R`, normalised
containment of `Q` in `R` makes `verify(Q, R)` true; and an empty quote or
an empty reference always fails. The original claim's unconditional
containment direction fails at `Q = ""` (see the counterexample), where
the empty-input guard wins although the normalised empty quote is a
substring of everything. -/
theorem verify_quote_exact_containment (q r : String) :
    (q ≠ "" → r ≠ "" → substrB (normaliseL q.data) (normaliseL r.data) = true →
      verify_quote q r = true) ∧
    ((q = "" ∨ r = "") → verify_quote q r = false) := by
  constructor
  · intro hq hr h
    have hq' : q.data.isEmpty = false := data_ne_nil hq
    have hr' : r.data.isEmpty = false := data_ne_nil hr
    unfold verify_quote verifyCore
    simp [hq', hr', h]
  · rintro (rfl | rfl)
    · rfl
    · unfold verify_quote verifyCore
      simp

/-- C7 counterexample: the empty quote normalises to the empty string,
which is a substring of every normalised reference, yet `verify_quote`
returns `false` — the claim's containment direction, read unconditionally,
is false at `Q = ""`, `R = "abc"`. -/
theorem verify_quote_empty_quote_cex :
    verify_quote "" "abc" = false ∧
    substrB (normaliseL "".data) (normaliseL "abc".data) = true := ⟨rfl, rfl⟩

/-- Witness for C7 on scenario-E-style inputs: same words, different case
and spacing. -/
theorem verify_quote_exact_containment_witness :
    verify_quote "the SPONSOR will   pay all costs" "The sponsor will pay all costs." = true ∧
    verify_quote "" "The sponsor will pay all costs." = false :=
  ⟨(verify_quote_exact_containment "the SPONSOR will   pay all costs"
      "The sponsor will pay all costs.").1 (by decide) (by decide) (by decide),
   (verify_quote_exact_containment "" "The sponsor will pay all costs.").2 (Or.inl rfl)⟩

/-! ## C5: availability classification decision table -/

/-- C5 (amended). The classification follows the four-rule decision table
in order with the first matching rule winning, where each keyword test is
substring containment in the space-joined, lowercased concatenation of
all tags — so a keyword spanning adjacent tags also matches, which is
what defeats the original per-tag reading (see the counterexample). -/
theorem classify_availability_table (tags : List String) :
    classify_availability tags =
      (let joined := String.intercalate " " (tags.map lowerStr)
       if substrB ("standard text").data joined.data then (true, false, true)
       else if substrB ("not in protocol").data joined.data &&
                !(substrB ("easy mapping").data joined.data ||
                  (substrB ("moderate mapping").data joined.data ||
                   substrB ("complex mapping").data joined.data)) &&
                !substrB ("potentially in protocol").data joined.data then (false, false, false)
       else if substrB ("not in protocol").data joined.data &&
                (substrB ("easy mapping").data joined.data ||
                 (substrB ("moderate mapping").data joined.data ||
                  substrB ("complex mapping").data joined.data) ||
                 substrB ("potentially in protocol").data joined.data) then (true, true, false)
       else (true, false, false)) := by
  simp only [classify_availability, List.any_cons, List.any_nil, Bool.or_false]

/-- C5 counterexample: neither tag of `["ab standard", "text cd"]`
contains `"standard text"` (nor any other keyword of the table), so the
claim's per-tag decision table reaches its default rule
`(true, false, false)`; the code joins the tags and classifies the list
as standard text, `(true, false, true)`. -/
theorem classify_availability_cex :
    classify_availability ["ab standard", "text cd"] = (true, false, true) ∧
    (["ab standard", "text cd"].all fun t =>
      !substrB ("standard text").data (lowerStr t).data &&
      !substrB ("not in protocol").data (lowerStr t).data &&
      !substrB ("potentially in protocol").data (lowerStr t).data &&
      !substrB ("easy mapping").data (lowerStr t).data &&
      !substrB ("moderate mapping").data (lowerStr t).data &&
      !substrB ("complex mapping").data (lowerStr t).data) = true := by
  constructor
  · rfl
  · decide

/-! ## C10: registry row filtering and the empty-registry error -/

/-- C10. Rows with fewer than 8 cells are silently skipped (as are rows
whose status cell is, case-insensitively, `excluded`): processing a row
list equals processing its filtered sublist. And when no variable
survives, `load_template_registry` raises (`Except.error`) instead of
returning an empty list; otherwise it returns the processed variables. -/
theorem registry_skips_short_rows (unescape : String → String) (rows : List Row) :
    processRows unescape rows =
      processRows unescape (rows.filter fun r =>
        decide (8 ≤ r.length) && !(lowerStr (stripStr (r.getD 1 "")) == "excluded")) ∧
    (processRows unescape rows = [] →
      load_template_registry unescape rows = Except.error "No variables loaded from CSV") ∧
    (processRows unescape rows ≠ [] →
      load_template_registry unescape rows = Except.ok (processRows unescape rows)) := by
  refine ⟨?_, ?_, ?_⟩
  · induction rows with
    | nil => rfl
    | cons row rest ih =>
      by_cases hlen : row.length < 8
      · have h8 : ¬ 8 ≤ row.length := by omega
        simp [processRows, hlen, List.filter_cons, h8, ih]
      · have h8 : 8 ≤ row.length := by omega
        by_cases hexc : lowerStr (stripStr (row.getD 1 "")) = "excluded"
        · have hexc2 := hexc
          simp [List.getD] at hexc2
          simp [processRows, hlen, hexc, hexc2, List.filter_cons, h8, ih]
        · have hexc2 := hexc
          simp [List.getD] at hexc2
          simp [processRows, hlen, hexc, hexc2, List.filter_cons, h8, ih]
  · intro h
    simp [load_template_registry, h]
  · intro h
    have : (processRows unescape rows).isEmpty = false := by
      cases hp : processRows unescape rows with
      | nil => exact absurd hp h
      | cons a t => rfl
    simp [load_template_registry, this]

/-! ## C6: router error paths -/

/-- C6 (amended). Any raised failure from the agent call yields an ERROR
result whose `error` field is the failure's type name and message, with
all content fields (answer, template, evidence, notes, raw response)
empty; and a successful call whose text yields no recoverable record
gives an ERROR result preserving the raw text, with notes
`"Failed to parse JSON from RLM response."` (the code's wording — the
claim's quoted `"Failed to parse structured output from agent response"`
is not what the code writes; see the counterexample). -/
theorem router_error_paths (v : TemplateVariable) :
    (∀ e : PyErr, run_rlm_extraction (Except.error e) v =
      ⟨v.section_id, v.heading, v.sub_section, "ERROR", "", "", [], "LOW", "", "",
       some (e.name ++ ": " ++ e.msg)⟩) ∧
    (∀ raw : String, parse_extraction_json raw = none →
      run_rlm_extraction (Except.ok raw) v =
        ⟨v.section_id, v.heading, v.sub_section, "ERROR", "", "", [], "LOW",
         "Failed to parse JSON from RLM response.", raw, some "JSON parse failure"⟩) := by
  refine ⟨fun e => rfl, fun raw h => ?_⟩
  simp [run_rlm_extraction, parse_response, h]

/-- C6 counterexample: on a short unparseable response the recovery-failure
note the router writes is `"Failed to parse JSON from RLM response."`, not
the claim's `"Failed to parse structured output from agent response"`. -/
theorem router_parse_note_cex :
    (run_rlm_extraction (Except.ok "nope") Vroute).notes =
      "Failed to parse JSON from RLM response." ∧
    (run_rlm_extraction (Except.ok "nope") Vroute).notes ≠
      "Failed to parse structured output from agent response" := by
  refine ⟨rfl, ?_⟩
  decide

/-- Witness for C6 at a concrete unparseable response. -/
theorem router_error_paths_witness :
    parse_extraction_json "???" = none ∧
    run_rlm_extraction (Except.ok "???") Vroute =
      ⟨"4.2", "Study Procedures", none, "ERROR", "", "", [], "LOW",
       "Failed to parse JSON from RLM response.", "???", some "JSON parse failure"⟩ ∧
    run_rlm_extraction (Except.error ⟨"TimeoutError", "agent timed out"⟩) Vroute =
      ⟨"4.2", "Study Procedures", none, "ERROR", "", "", [], "LOW", "", "",
       some "TimeoutError: agent timed out"⟩ :=
  ⟨rfl, (router_error_paths Vroute).2 "???" rfl,
   (router_error_paths Vroute).1 ⟨"TimeoutError", "agent timed out"⟩⟩

/-! ## C4: the free-form-text fallback floor -/

/-- C4. When all structured strategies fail, recovery returns the
synthesized PARTIAL fallback record exactly when the trimmed text exceeds
20 characters, and absent otherwise. `fallbackRecord` carries
`status="PARTIAL"`, the trimmed text as `answer`, empty evidence,
`confidence="LOW"` and the free-form-substitution note. -/
theorem recovery_fallback_floor (raw : String)
    (h1 : strategy1 (stripWsL raw.data) = none)
    (h2 : strategy2 (stripWsL raw.data) = none)
    (h3 : strategy3 raw.data = none)
    (h4 : stage45 raw.data = none) :
    parse_extraction_json raw =
      if 20 < (stripWsL raw.data).length then some (fallbackRecord (stripWsL raw.data))
      else none := by
  unfold parse_extraction_json parseExtractionCore
  cases hd : raw.data with
  | nil => simp [hd, stripWsL]
  | cons c t =>
    rw [hd] at h1 h2 h3 h4
    simp [h1, h2, h3, h4]

/-- Witness for C4: 29 characters of plain prose produce the PARTIAL
fallback with the prose as answer. -/
theorem recovery_fallback_floor_witness :
    (strategy1 (stripWsL "this is plain prose text here".data) = none ∧
     strategy2 (stripWsL "this is plain prose text here".data) = none ∧
     strategy3 "this is plain prose text here".data = none ∧
     stage45 "this is plain prose text here".data = none) ∧
    parse_extraction_json "this is plain prose text here" =
      some (fallbackRecord "this is plain prose text here".data) :=
  ⟨⟨rfl, rfl, rfl, rfl⟩,
   (recovery_fallback_floor "this is plain prose text here" rfl rfl rfl rfl).trans rfl⟩

/-! ## C3: tie-break among brace candidates -/

/-- A good candidate really parses to a dict with a `"status"` key. -/
theorem goodCand_parse {c : PyStr} (h : goodCand c = true) :
    ∃ d, jsonLoadsDict c = some d ∧ hasKey d "status" = true := by
  unfold goodCand at h
  cases hd : jsonLoadsDict c with
  | none => rw [hd] at h; exact absurd h (by simp)
  | some d => rw [hd] at h; exact ⟨d, rfl, h⟩

/-- If the scan's candidate list holds a good candidate, the first one
found wins regardless of the accumulator. -/
theorem scan45_finds_good :
    ∀ (l : List PyStr) (acc : Option JObj) (c : PyStr),
      l.find? goodCand = some c → scan45 l acc = jsonLoadsDict c := by
  intro l
  induction l with
  | nil => intro acc c h; simp at h
  | cons hd tl ih =>
    intro acc c h
    by_cases hg : goodCand hd = true
    · rw [List.find?_cons_of_pos _ hg] at h
      obtain rfl : hd = c := Option.some.inj h
      obtain ⟨d, hdp, hk⟩ := goodCand_parse hg
      simp [scan45, hdp, hk]
    · rw [List.find?_cons_of_neg _ (by simpa using hg)] at h
      cases hjd : jsonLoadsDict hd with
      | none => simpa [scan45, hjd] using ih acc c h
      | some d =>
        have hk : hasKey d "status" = false := by
          unfold goodCand at hg
          rw [hjd] at hg
          simpa using hg
        simpa [scan45, hjd, hk] using ih _ c h

/-- Without a good candidate anywhere, a set accumulator survives the
scan (`any_valid` is written at most once). -/
theorem scan45_keeps (d : JObj) :
    ∀ l : List PyStr, l.find? goodCand = none → scan45 l (some d) = some d := by
  intro l
  induction l with
  | nil => intro _; rfl
  | cons hd tl ih =>
    intro h
    have hg : goodCand hd = false := by
      have := List.find?_eq_none.mp h hd (List.mem_cons_self hd tl)
      simpa using this
    have htl : tl.find? goodCand = none :=
      List.find?_eq_none.mpr fun a ha =>
        List.find?_eq_none.mp h a (List.mem_cons_of_mem hd ha)
    cases hjd : jsonLoadsDict hd with
    | none => simpa [scan45, hjd] using ih htl
    | some d2 =>
      have hk : hasKey d2 "status" = false := by
        unfold goodCand at hg
        rw [hjd] at hg
        simpa using hg
      simpa [scan45, hjd, hk] using ih htl

/-- Without a good candidate, the scan returns the parse of the first
parseable candidate it meets. -/
theorem scan45_fallback :
    ∀ l : List PyStr, l.find? goodCand = none →
      ∀ c, l.find? parseCand = some c → scan45 l none = jsonLoadsDict c := by
  intro l
  induction l with
  | nil => intro _ c hc; simp at hc
  | cons hd tl ih =>
    intro h c hc
    have hg : goodCand hd = false := by
      have := List.find?_eq_none.mp h hd (List.mem_cons_self hd tl)
      simpa using this
    have htl : tl.find? goodCand = none :=
      List.find?_eq_none.mpr fun a ha =>
        List.find?_eq_none.mp h a (List.mem_cons_of_mem hd ha)
    by_cases hp : parseCand hd = true
    · rw [List.find?_cons_of_pos _ hp] at hc
      obtain rfl : hd = c := Option.some.inj hc
      obtain ⟨d, hjd⟩ := Option.isSome_iff_exists.mp hp
      have hk : hasKey d "status" = false := by
        unfold goodCand at hg
        rw [hjd] at hg
        simpa using hg
      rw [hjd]
      simpa [scan45, hjd, hk] using scan45_keeps d tl htl
    · rw [List.find?_cons_of_neg _ (by simpa using hp)] at hc
      have hjd : jsonLoadsDict hd = none := by
        unfold parseCand at hp
        simpa using hp
      simpa [scan45, hjd] using ih htl c hc

/-- With strategies 1–3 failing, `parse_extraction_json` returns whatever
strategies 4+5 produce when they produce something. -/
theorem parse_eq_stage45 (raw : String) (hemp : raw.data.isEmpty = false)
    (h1 : strategy1 (stripWsL raw.data) = none)
    (h2 : strategy2 (stripWsL raw.data) = none)
    (h3 : strategy3 raw.data = none)
    (d : JObj) (h45 : stage45 raw.data = some d) :
    parse_extraction_json raw = some d := by
  unfold parse_extraction_json parseExtractionCore
  simp [hemp, h1, h2, h3, h45]

/-- A found candidate forces a nonempty input. -/
theorem cand_ne_empty {p : PyStr → Bool} {raw : String} {c : PyStr}
    (h : (extract_brace_candidates raw.data).reverse.find? p = some c) :
    raw.data.isEmpty = false := by
  cases hd : raw.data with
  | nil => rw [hd] at h; simp [extract_brace_candidates, braceAux] at h
  | cons a t => rfl

/-- C3. When strategies 1–3 fail, recovery returns the parse of the
last-occurring brace-balanced candidate that parses as a dict with a
`"status"` key (the first hit of the reversed scan); when no candidate
has a `"status"` key but some candidate parses, it returns the parse of
the last-occurring parseable candidate. -/
theorem recovery_brace_tiebreak (raw : String)
    (h1 : strategy1 (stripWsL raw.data) = none)
    (h2 : strategy2 (stripWsL raw.data) = none)
    (h3 : strategy3 raw.data = none) :
    (∀ c, (extract_brace_candidates raw.data).reverse.find? goodCand = some c →
      parse_extraction_json raw = jsonLoadsDict c) ∧
    ((extract_brace_candidates raw.data).reverse.find? goodCand = none →
      ∀ c, (extract_brace_candidates raw.data).reverse.find? parseCand = some c →
        parse_extraction_json raw = jsonLoadsDict c) := by
  constructor
  · intro c hc
    obtain ⟨d, hjd, _⟩ := goodCand_parse (List.find?_some hc)
    have h45 : stage45 raw.data = some d := by
      unfold stage45
      rw [scan45_finds_good _ none c hc, hjd]
    rw [parse_eq_stage45 raw (cand_ne_empty hc) h1 h2 h3 d h45, hjd]
  · intro hnone c hc
    have hpc := List.find?_some hc
    have hps : (jsonLoadsDict c).isSome = true := hpc
    obtain ⟨d, hjd⟩ := Option.isSome_iff_exists.mp hps
    have h45 : stage45 raw.data = some d := by
      unfold stage45
      rw [scan45_fallback _ hnone c hc, hjd]
    rw [parse_eq_stage45 raw (cand_ne_empty hc) h1 h2 h3 d h45, hjd]

/-- Witness for C3: three candidates; the `"status"`-bearing middle one is
the last-occurring good candidate and wins over the later plain object. -/
theorem recovery_brace_tiebreak_witness :
    (strategy1 (stripWsL W3.data) = none ∧ strategy2 (stripWsL W3.data) = none ∧
     strategy3 W3.data = none) ∧
    (extract_brace_candidates W3.data).reverse.find? goodCand =
      some "\x7b\"status\": \"FOUND\", \"answer\": \"yes\"\x7d".data ∧
    parse_extraction_json W3 =
      some [("status", JValue.str "FOUND"), ("answer", JValue.str "yes")] :=
  ⟨⟨rfl, rfl, rfl⟩, rfl,
   ((recovery_brace_tiebreak W3 rfl rfl rfl).1
     "\x7b\"status\": \"FOUND\", \"answer\": \"yes\"\x7d".data rfl).trans rfl⟩

/-! ## C8: the validation engine's shape -/

/-- One `ValidationResult` per `ExtractionResult`, in order. -/
theorem validate_extractions_length (flesch : String → Option ℚ) (fmtGrade : ℚ → String)
    (exts : List ExtractionResult) (protocol : String) :
    (validate_extractions flesch fmtGrade exts protocol).length = exts.length := by
  induction exts with
  | nil => rfl
  | cons e t ih => simpa [validate_extractions] using ih

/-- C8. Extractions with a non-extractable status (SKIPPED, ERROR,
NOT_FOUND, STANDARD_TEXT) get the empty ValidationResult (no quote flags,
absent reading grade, no issues); every other extraction gets quote flags
index-aligned with its evidence (one `verify_quote` verdict each) and, as
issues, one truncated diagnostic per failed quote followed by the
reading-level warning when the grade exceeds 8. -/
theorem validation_engine_spec (flesch : String → Option ℚ) (fmtGrade : ℚ → String)
    (exts : List ExtractionResult) (protocol : String) :
    (validate_extractions flesch fmtGrade exts protocol).length = exts.length ∧
    ∀ (i : Nat) (h : i < exts.length)
      (h2 : i < (validate_extractions flesch fmtGrade exts protocol).length),
      (nonExtractable (exts.get ⟨i, h⟩).status = true →
        (validate_extractions flesch fmtGrade exts protocol).get ⟨i, h2⟩ =
          ⟨(exts.get ⟨i, h⟩).section_id, [], none, []⟩) ∧
      (nonExtractable (exts.get ⟨i, h⟩).status = false →
        ((validate_extractions flesch fmtGrade exts protocol).get ⟨i, h2⟩).quotes_verified =
          (exts.get ⟨i, h⟩).evidence.map (fun ev => verify_quote ev.quote protocol) ∧
        ((validate_extractions flesch fmtGrade exts protocol).get ⟨i, h2⟩).issues =
          (exts.get ⟨i, h⟩).evidence.filterMap (fun ev =>
            if verify_quote ev.quote protocol then none else some (quoteIssue ev.quote)) ++
          (match check_reading_level flesch (exts.get ⟨i, h⟩).answer with
           | some g =>
             if READING_LEVEL_WARN < g then
               ["Reading level (" ++ fmtGrade g ++ ") exceeds Grade 8 target."]
             else []
           | none => [])) := by
  refine ⟨validate_extractions_length flesch fmtGrade exts protocol, ?_⟩
  induction exts with
  | nil => intro i h h2; exact absurd h (by simp)
  | cons e t ih =>
    intro i h h2
    cases i with
    | zero =>
      constructor
      · intro hne
        have hne' : nonExtractable e.status = true := hne
        simp [validate_extractions, hne']
      · intro hne
        have hne' : nonExtractable e.status = false := hne
        constructor
        · simp [validate_extractions, hne']
        · simp [validate_extractions, hne']
    | succ j => exact ih j (Nat.lt_of_succ_lt_succ h) (Nat.lt_of_succ_lt_succ h2)

example :
    validate_extractions fleschNone fmtGradeStub [E8] P8 =
      [⟨"7.1", [true, false], none, [quoteIssue "purple monkeys"]⟩] := rfl

example :
    validate_extractions fleschNone fmtGradeStub
      [⟨"2.0", "H", none, "SKIPPED", "", "", [⟨"q", "1", ""⟩], "N/A", "", "", none⟩] P8 =
      [⟨"2.0", [], none, []⟩] := rfl

/-! ## C1: status of every router result -/

/-- C1 (amended). Every router result either is built from a recovered
agent record — in which case its status is copied verbatim from the
record's `"status"` value (default ERROR) and its evidence from the
record, with no constraint tying the status to the six kinds — or it
comes from the short-circuit and error paths, where the status is one of
the six defined kinds and a STANDARD_TEXT or SKIPPED status carries empty
evidence. -/
theorem router_status_exclusivity (agentOf : String → TemplateVariable → Except PyErr String)
    (protocol : String) (v : TemplateVariable) :
    (∃ raw d, agentOf protocol v = Except.ok raw ∧ parse_extraction_json raw = some d ∧
      (extract_variable agentOf protocol v).status = getStrD d "status" "ERROR" ∧
      (extract_variable agentOf protocol v).evidence = evidenceOf d) ∨
    (sixStatus (extract_variable agentOf protocol v).status = true ∧
     (((extract_variable agentOf protocol v).status = "STANDARD_TEXT" ∨
       (extract_variable agentOf protocol v).status = "SKIPPED") →
      (extract_variable agentOf protocol v).evidence = [])) := by
  by_cases hstd : v.is_standard_text = true
  · right
    constructor
    · simp [extract_variable, hstd, make_standard_result, sixStatus]
    · intro _
      simp [extract_variable, hstd, make_standard_result]
  · have hstd' : v.is_standard_text = false := by simpa using hstd
    by_cases hskip : (!v.is_in_protocol && !v.partially_in_protocol) = true
    · right
      constructor
      · simp [extract_variable, hstd', hskip, make_skipped_result, sixStatus]
      · intro _
        simp [extract_variable, hstd', hskip, make_skipped_result]
    · have hskip' : (!v.is_in_protocol && !v.partially_in_protocol) = false := by
        simpa using hskip
      cases hresp : agentOf protocol v with
      | error e =>
        right
        constructor
        · simp [extract_variable, hstd', hskip', run_rlm_extraction, hresp, sixStatus]
        · intro _
          simp [extract_variable, hstd', hskip', run_rlm_extraction, hresp]
      | ok raw =>
        cases hp : parse_extraction_json raw with
        | none =>
          right
          constructor
          · simp [extract_variable, hstd', hskip', run_rlm_extraction, hresp,
              parse_response, hp, sixStatus]
          · intro _
            simp [extract_variable, hstd', hskip', run_rlm_extraction, hresp,
              parse_response, hp]
        | some d =>
          left
          refine ⟨raw, d, rfl, hp, ?_, ?_⟩
          · simp [extract_variable, hstd', hskip', run_rlm_extraction, hresp,
              parse_response, hp]
          · simp [extract_variable, hstd', hskip', run_rlm_extraction, hresp,
              parse_response, hp]

/-- C1 counterexample: a recovered record's status is stored verbatim, so
the result's status `"WEIRD"` lies outside the six defined kinds. -/
theorem router_status_exclusivity_cex :
    (extract_variable agWeird "p" Vroute).status = "WEIRD" ∧
    sixStatus (extract_variable agWeird "p" Vroute).status = false := ⟨rfl, rfl⟩

/-! ## C2: one result per work item, in order, joined by itemId -/

/-- Index access through `List.map`. -/
theorem get_map_eq {α β : Type} (F : α → β) :
    ∀ (l : List α) (i : Nat) (h1 : i < (l.map F).length) (h : i < l.length),
      (l.map F).get ⟨i, h1⟩ = F (l.get ⟨i, h⟩) := by
  intro l
  induction l with
  | nil => intro i h1 h; exact absurd h (by simp)
  | cons a t ih =>
    intro i h1 h
    cases i with
    | zero => rfl
    | succ j => exact ih j (Nat.lt_of_succ_lt_succ h1) (Nat.lt_of_succ_lt_succ h)

/-- A ValidationResult keeps its extraction's `section_id`. -/
theorem validate_get_section_id (flesch : String → Option ℚ) (fmtGrade : ℚ → String)
    (protocol : String) :
    ∀ (exts : List ExtractionResult) (i : Nat)
      (h2 : i < (validate_extractions flesch fmtGrade exts protocol).length)
      (h : i < exts.length),
      ((validate_extractions flesch fmtGrade exts protocol).get ⟨i, h2⟩).section_id =
        (exts.get ⟨i, h⟩).section_id := by
  intro exts
  induction exts with
  | nil => intro i h2 h; exact absurd h (by simp)
  | cons e t ih =>
    intro i h2 h
    cases i with
    | zero =>
      by_cases hne : nonExtractable e.status = true
      · simp [validate_extractions, hne]
      · simp [validate_extractions, hne]
    | succ j => exact ih j (Nat.lt_of_succ_lt_succ h2) (Nat.lt_of_succ_lt_succ h)

/-- A key `any`-absent from a dict is not found by lookup. -/
theorem jGet_eq_none {d : JObj} {k : String} (h : hasKey d k = false) : jGet d k = none := by
  unfold jGet
  have hnone : d.reverse.find? (fun p => p.1 == k) = none := by
    refine List.find?_eq_none.mpr fun p hp hb => ?_
    have : hasKey d k = true :=
      List.any_eq_true.mpr ⟨p, List.mem_reverse.mp hp, hb⟩
    rw [h] at this
    exact absurd this (by simp)
  rw [hnone]
  rfl

/-- The router's result keeps the work item's identifier unless a
recovered record supplies its own `"section_id"`. -/
theorem extract_variable_section_id (agentOf : String → TemplateVariable → Except PyErr String)
    (protocol : String) (v : TemplateVariable) :
    (extract_variable agentOf protocol v).section_id = v.section_id ∨
    ∃ raw d, agentOf protocol v = Except.ok raw ∧ parse_extraction_json raw = some d ∧
      hasKey d "section_id" = true ∧
      (extract_variable agentOf protocol v).section_id = getStrD d "section_id" v.section_id := by
  by_cases hstd : v.is_standard_text = true
  · left; simp [extract_variable, hstd, make_standard_result]
  · have hstd' : v.is_standard_text = false := by simpa using hstd
    by_cases hskip : (!v.is_in_protocol && !v.partially_in_protocol) = true
    · left; simp [extract_variable, hstd', hskip, make_skipped_result]
    · have hskip' : (!v.is_in_protocol && !v.partially_in_protocol) = false := by
        simpa using hskip
      cases hresp : agentOf protocol v with
      | error e =>
        left; simp [extract_variable, hstd', hskip', run_rlm_extraction, hresp]
      | ok raw =>
        cases hp : parse_extraction_json raw with
        | none =>
          left
          simp [extract_variable, hstd', hskip', run_rlm_extraction, hresp, parse_response, hp]
        | some d =>
          by_cases hk : hasKey d "section_id" = true
          · right
            refine ⟨raw, d, rfl, hp, hk, ?_⟩
            simp [extract_variable, hstd', hskip', run_rlm_extraction, hresp, parse_response, hp]
          · left
            have hk' : hasKey d "section_id" = false := by simpa using hk
            have : getStrD d "section_id" v.section_id = v.section_id := by
              unfold getStrD
              rw [jGet_eq_none hk']
            simp [extract_variable, hstd', hskip', run_rlm_extraction, hresp,
              parse_response, hp, this]

/-- C2 (amended). An uninterrupted run produces exactly one
ExtractionResult and one ValidationResult per work item, in input order;
each ValidationResult's `section_id` equals its ExtractionResult's; and
each ExtractionResult's `section_id` equals the work item's identifier
unless the recovered agent record carries its own `"section_id"` key, in
which case that value (as stored) overrides the join key. -/
theorem pipeline_one_result_per_item (agentOf : String → TemplateVariable → Except PyErr String)
    (flesch : String → Option ℚ) (fmtGrade : ℚ → String)
    (protocol : String) (vars : List TemplateVariable) :
    (pipelineRun agentOf flesch fmtGrade protocol vars).1.length = vars.length ∧
    (pipelineRun agentOf flesch fmtGrade protocol vars).2.length = vars.length ∧
    ∀ (i : Nat) (h : i < vars.length)
      (h1 : i < (pipelineRun agentOf flesch fmtGrade protocol vars).1.length)
      (h2 : i < (pipelineRun agentOf flesch fmtGrade protocol vars).2.length),
      ((pipelineRun agentOf flesch fmtGrade protocol vars).1.get ⟨i, h1⟩ =
        extract_variable agentOf protocol (vars.get ⟨i, h⟩)) ∧
      (((pipelineRun agentOf flesch fmtGrade protocol vars).2.get ⟨i, h2⟩).section_id =
        ((pipelineRun agentOf flesch fmtGrade protocol vars).1.get ⟨i, h1⟩).section_id) ∧
      (((pipelineRun agentOf flesch fmtGrade protocol vars).1.get ⟨i, h1⟩).section_id =
         (vars.get ⟨i, h⟩).section_id ∨
       ∃ raw d, agentOf protocol (vars.get ⟨i, h⟩) = Except.ok raw ∧
         parse_extraction_json raw = some d ∧ hasKey d "section_id" = true ∧
         ((pipelineRun agentOf flesch fmtGrade protocol vars).1.get ⟨i, h1⟩).section_id =
           getStrD d "section_id" (vars.get ⟨i, h⟩).section_id) := by
  refine ⟨by simp [pipelineRun], ?_, ?_⟩
  · show (validate_extractions flesch fmtGrade
      (vars.map (extract_variable agentOf protocol)) protocol).length = vars.length
    rw [validate_extractions_length]
    simp
  · intro i h h1 h2
    have hg : (pipelineRun agentOf flesch fmtGrade protocol vars).1.get ⟨i, h1⟩ =
        extract_variable agentOf protocol (vars.get ⟨i, h⟩) :=
      get_map_eq (extract_variable agentOf protocol) vars i h1 h
    refine ⟨hg, ?_, ?_⟩
    · exact validate_get_section_id flesch fmtGrade protocol
        (vars.map (extract_variable agentOf protocol)) i h2 h1 |>.trans rfl
    · rcases extract_variable_section_id agentOf protocol (vars.get ⟨i, h⟩) with hL | ⟨raw, d, hr, hp, hk, hs⟩
      · left; rw [hg]; exact hL
      · right; exact ⟨raw, d, hr, hp, hk, by rw [hg]; exact hs⟩

/-- C2 counterexample: the work item is `"4.2"` but the recovered record's
`"section_id": "999"` is stored as the result's `section_id`, breaking the
claimed identity of the join key with the work item's identifier. -/
theorem pipeline_join_key_cex :
    ((pipelineRun agOverride fleschNone fmtGradeStub "p" [Vroute]).1.get
      ⟨0, by decide⟩).section_id = "999" ∧
    Vroute.section_id = "4.2" ∧ ("999" : String) ≠ "4.2" := by
  refine ⟨rfl, rfl, ?_⟩
  decide

end Icf

-- Concrete evaluations of the embedded parsers and recovery strategies.
example : "ab".data = ['a', 'b'] := rfl
example : Icf.substrB "bc".data "abcd".data = true := by decide
example : Icf.normaliseL "  A  b\t c ".data = "a b c".data := by decide
example : Icf.stripWsL "  x ".data = ['x'] := rfl
example : Icf.jsonLoadsDict "\x7b\"status\": \"FOUND\", \"n\": -1.5e2\x7d".data =
    some [("status", Icf.JValue.str "FOUND"), ("n", Icf.JValue.num "-1.5e2")] := rfl
example : Icf.jsonLoadsDict "\x7b\"a\": [1, \"x\\n\", true, null]\x7d".data =
    some [("a", Icf.JValue.arr [Icf.JValue.num "1", Icf.JValue.str "x\n",
      Icf.JValue.bool true, Icf.JValue.null])] := rfl
example : Icf.jsonLoadsDict "not json".data = none := rfl
example : Icf.jsonLoadsDict "[1, 2]".data = none := rfl
example : Icf.jsonLoadsDict "\x7b\"a\": 1".data = none := rfl
example : Icf.pyLiteralEval "\x7b'status': 'FOUND', 'n': -7\x7d".data =
    some (Icf.JValue.obj [("status", Icf.JValue.str "FOUND"), ("n", Icf.JValue.num "-7")]) := rfl
example : Icf.pyLiteralEval "[1, (2, 3), 'a\\'b',]".data =
    some (Icf.JValue.arr [Icf.JValue.num "1", Icf.JValue.arr [Icf.JValue.num "2", Icf.JValue.num "3"],
      Icf.JValue.str "a'b"]) := rfl
example : Icf.pyLiteralEval "plain prose, not a literal".data = none := rfl
example : Icf.pyLiteralEval "True".data = some (Icf.JValue.bool true) := rfl
example : Icf.pyLiteralEval "noise \x7b'a': 1\x7d".data = none := rfl
example : Icf.extract_brace_candidates "ab \x7bx \x7by\x7d z\x7d cd \x7bw\x7d".data =
    ["\x7bx \x7by\x7d z\x7d".data, "\x7bw\x7d".data] := rfl
example : Icf.extract_brace_candidates "\x7d\x7bx\x7d".data = [] := rfl
example : Icf.parse_extraction_json "\x7b\"status\": \"FOUND\"\x7d" =
    some [("status", Icf.JValue.str "FOUND")] := rfl
example : Icf.parse_extraction_json "pre ```json\n\x7b\"status\": \"X\"\x7d\n``` post" =
    some [("status", Icf.JValue.str "X")] := rfl
example : Icf.parse_extraction_json "text \x7b\"a\": 1\x7d mid \x7b\"status\": \"F\"\x7d end" =
    some [("status", Icf.JValue.str "F")] := rfl
example : Icf.parse_extraction_json "this is plain prose text here" =
    some (Icf.fallbackRecord "this is plain prose text here".data) := rfl
example : Icf.parse_extraction_json "short" = none := rfl
